import Mathlib

/-!
Verification of the BusDashboard driver-assignment service
(`server/ortools-service.py`) against its specification.

Shallow embedding conventions:
* Python numbers (`int`/`float` hour values) are modelled as `ℚ`.
* The external SCIP solver (`pywraplp`) is modelled as an oracle
  (`SolverOracle`): the status it returns plus the 0/1 solution values it
  reports for the decision variables `x[i,j]` (the Python code reads them
  as `solution_value() > 0.5`, i.e. a boolean per pair).
* Python `raise` is modelled as `Except.error`; normal returns as
  `Except.ok`.
* Input records are typed (`Driver`, `Route`), so the purely structural
  JSON checks of the validator (missing keys, non-dict elements,
  non-numeric fields) hold by construction; the remaining checks are
  embedded faithfully.
-/

namespace OrtoolsService

/-- A driver record: `{name, available_hours}` (remaining monthly hours). -/
structure Driver where
  name : String
  available_hours : ℚ
  deriving DecidableEq

instance : Inhabited Driver := ⟨⟨"", 0⟩⟩

/-- A route record: `{name, hours}`. -/
structure Route where
  name : String
  hours : ℚ
  deriving DecidableEq

instance : Inhabited Route := ⟨⟨"", 0⟩⟩

/-- An assignment record produced by the solver post-processing
(`ortools-service.py` lines 105-109). -/
structure Assignment where
  driver_name : String
  route_name : String
  route_hours : ℚ
  deriving DecidableEq

/-- A per-driver day snapshot (`driver_assignments[i]`, lines 93-99). -/
structure DriverStatus where
  name : String
  assigned_route : Option String
  assigned_hours : ℚ
  remaining_hours : ℚ
  deriving DecidableEq

/-- The `statistics` sub-record of an optimal result (lines 137-144). -/
structure Statistics where
  total_routes : Nat
  routes_assigned : Nat
  routes_unassigned : Nat
  total_hours_assigned : ℚ
  drivers_working : Nat
  drivers_available : Nat
  deriving DecidableEq

/-- The `status` string of a solve result: `optimal`, `infeasible` or
`error`. -/
inductive Status where
  | optimal
  | infeasible
  | error
  deriving DecidableEq

/-- A solve result record.  The Python code returns dicts with different
key sets per branch; fields absent in a branch are `none` / empty here. -/
structure SolveResult where
  status : Status
  assignments : List Assignment
  driver_status : List DriverStatus
  unassigned_routes : List String
  statistics : Option Statistics
  objective_value : Option ℚ
  message : Option String
  deriving DecidableEq

/-- The status reported by `solver.Solve()`: `OPTIMAL`, `INFEASIBLE`, or
anything else (the `else` branch at line 159). -/
inductive LpStatus where
  | OPTIMAL
  | INFEASIBLE
  | OTHER
  deriving DecidableEq

/-- Oracle for the external SCIP solver: its reported status and the
0/1 value it reports for each decision variable `x[i,j]`
(`value i j = true` iff `x[i,j].solution_value() > 0.5`). -/
structure SolverOracle where
  status : LpStatus
  value : Nat → Nat → Bool

/-- The `(i, j)` pairs with `x[i,j]` set in the reported solution, in the
iteration order of the nested loop at lines 102-104 (driver index outer,
route index inner). -/
def assignedPairs (nd nr : Nat) (v : Nat → Nat → Bool) : List (Nat × Nat) :=
  (List.range nd).flatMap fun i =>
    ((List.range nr).filter fun j => v i j).map fun j => (i, j)

/-- The assignment record built from a pair `(i, j)` (lines 105-109). -/
def mkAssignment (drivers : List Driver) (routes : List Route)
    (p : Nat × Nat) : Assignment :=
  { driver_name := (drivers.getD p.1 default).name
    route_name := (routes.getD p.2 default).name
    route_hours := (routes.getD p.2 default).hours }

/-- The final `driver_assignments[i]` entry: initialised at lines 93-99 and
overwritten at lines 113-117 for each `j` with `x[i,j] = 1`, so the last
such `j` wins. -/
def driverStatusAt (drivers : List Driver) (routes : List Route)
    (v : Nat → Nat → Bool) (i : Nat) : DriverStatus :=
  let d := drivers.getD i default
  match ((List.range routes.length).filter fun j => v i j).getLast? with
  | none => { name := d.name, assigned_route := none, assigned_hours := 0,
              remaining_hours := d.available_hours }
  | some j =>
      let r := routes.getD j default
      { name := d.name, assigned_route := some r.name,
        assigned_hours := r.hours,
        remaining_hours := d.available_hours - r.hours }

/-- The per-variable objective coefficient (lines 72-80): the driver's
share of the total remaining hours, or `1.0` when that total is not
positive. -/
def objectiveWeight (drivers : List Driver) (i : Nat) : ℚ :=
  let total := (drivers.map Driver.available_hours).sum
  if total > 0 then (drivers.getD i default).available_hours / total else 1

/-- The objective value the solver reports for the solution it returned:
`Σ x[i,j] · w[i]` evaluated at the reported values. -/
def objectiveValueAt (drivers : List Driver) (routes : List Route)
    (v : Nat → Nat → Bool) : ℚ :=
  ((assignedPairs drivers.length routes.length v).map fun p =>
    objectiveWeight drivers p.1).sum

/-- The `OPTIMAL` branch of `solve_driver_assignment` (lines 87-146):
post-processes the solution reported by the solver into a result record. -/
def optimalResult (drivers : List Driver) (routes : List Route)
    (v : Nat → Nat → Bool) : SolveResult :=
  let nd := drivers.length
  let nr := routes.length
  let assignments :=
    (assignedPairs nd nr v).map (mkAssignment drivers routes)
  let assigned_routes := assignments.map Assignment.route_name
  let unassigned_routes :=
    (routes.filter fun route => ¬ assigned_routes.contains route.name).map
      Route.name
  let total_assigned_hours := (assignments.map Assignment.route_hours).sum
  { status := Status.optimal
    assignments := assignments
    driver_status := (List.range nd).map (driverStatusAt drivers routes v)
    unassigned_routes := unassigned_routes
    statistics := some
      { total_routes := nr
        routes_assigned := assignments.length
        routes_unassigned := unassigned_routes.length
        total_hours_assigned := total_assigned_hours
        drivers_working := assignments.length
        drivers_available := nd }
    objective_value := some (objectiveValueAt drivers routes v)
    message := none }

/-- The diagnostic message of the `INFEASIBLE` branch (lines 152-156). -/
def infeasibleMessage : String :=
  "No feasible solution found. Possible reasons:\n" ++
  "1. Total route hours exceed total available driver hours\n" ++
  "2. Individual driver remaining hours are insufficient\n" ++
  "3. More routes than available drivers"

/-- Embedding of `solve_driver_assignment` (lines 18-163).  `data.get`
with default `[]` means an absent key behaves as an empty list, so the
input is the pair of lists; the external solver call is the oracle.  The
`RuntimeError` for an unavailable solver backend is outside the model
(the oracle existing models a created solver). -/
def solve_driver_assignment (drivers : List Driver) (routes : List Route)
    (oracle : SolverOracle) : Except String SolveResult :=
  if drivers.isEmpty || routes.isEmpty then
    Except.error "Both drivers and routes must be provided"
  else
    match oracle.status with
    | LpStatus.OPTIMAL =>
        Except.ok (optimalResult drivers routes oracle.value)
    | LpStatus.INFEASIBLE =>
        Except.ok
          { status := Status.infeasible
            assignments := []
            driver_status := []
            unassigned_routes := []
            statistics := none
            objective_value := none
            message := some infeasibleMessage }
    | LpStatus.OTHER =>
        Except.ok
          { status := Status.error
            assignments := []
            driver_status := []
            unassigned_routes := []
            statistics := none
            objective_value := none
            message := some "Solver failed to find a solution" }

/-- Constraint 1 added to the solver (lines 50-52): each route is assigned
to exactly one driver, stated of the reported solution values. -/
def routeCoverage (nd nr : Nat) (v : Nat → Nat → Bool) : Prop :=
  ∀ j < nr, ((List.range nd).filter fun i => v i j).length = 1

/-- Constraint 2 added to the solver (lines 54-56): each driver is
assigned at most one route, stated of the reported solution values. -/
def driverCapacity (nd nr : Nat) (v : Nat → Nat → Bool) : Prop :=
  ∀ i < nd, ((List.range nr).filter fun j => v i j).length ≤ 1

/-- Constraint 3 added to the solver (lines 58-62): each driver's assigned
hours stay within their available hours, stated of the reported solution
values. -/
def hourBudget (drivers : List Driver) (routes : List Route)
    (v : Nat → Nat → Bool) : Prop :=
  ∀ i < drivers.length,
    ((((List.range routes.length).filter fun j => v i j).map fun j =>
      (routes.getD j default).hours)).sum ≤
      (drivers.getD i default).available_hours

/-- Python `max(driver['available_hours'] for driver in drivers)`
(line 218): fold of `max` over a non-empty list (the `[]` case is
unreachable behind the emptiness checks). -/
def maxDriverHours : List Driver → ℚ
  | [] => 0
  | d :: ds => ds.foldl (fun m x => max m x.available_hours) d.available_hours

/-- Python `min(route['hours'] for route in routes)` (line 219). -/
def minRouteHours : List Route → ℚ
  | [] => 0
  | r :: rs => rs.foldl (fun m x => min m x.hours) r.hours

/-- Embedding of `validate_assignment_input` (lines 166-224) on typed
input.  The JSON-shape checks (input a dict, keys present, arrays,
elements objects, fields present and numeric) hold by construction of the
typed records; the emptiness, non-negativity and global feasibility
checks are embedded in source order. -/
def validate_assignment_input (drivers : List Driver) (routes : List Route) :
    Bool × String :=
  if drivers.length = 0 then
    (false, "At least one driver is required")
  else if routes.length = 0 then
    (false, "At least one route is required")
  else
    match (List.range drivers.length).find? (fun i =>
        (drivers.getD i default).available_hours < 0) with
    | some i =>
        (false, "Driver " ++ toString i ++
          " 'available_hours' must be a non-negative number")
    | none =>
        match (List.range routes.length).find? (fun i =>
            (routes.getD i default).hours < 0) with
        | some i =>
            (false, "Route " ++ toString i ++
              " 'hours' must be a non-negative number")
        | none =>
            if maxDriverHours drivers < minRouteHours routes then
              (false, "No driver has enough hours (" ++
                toString (maxDriverHours drivers) ++
                ") to handle the shortest route (" ++
                toString (minRouteHours routes) ++ ")")
            else
              (true, "")

/-- Modelled from the spec: working driver record of the Greedy Assigner
(spec §4.2).  The Greedy Assigner's source file is part of this repository
but is missing from `src/` (only `ortools-service.py`, the Exact
Assigner, is present), so it is modelled from the spec's words: a working
copy of a driver with its decremented hours and an assigned-today flag. -/
structure GDriver where
  name : String
  available_hours : ℚ
  assigned : Bool
  deriving DecidableEq

/-- Modelled from the spec: stable insertion of `x` into a list already
sorted descending by `key` (spec §4.2 step 2 sorts descending; §9 notes
the tie-break is first-encountered, i.e. the sort is stable). -/
def insertDescBy {α : Type} (key : α → ℚ) (x : α) : List α → List α
  | [] => [x]
  | y :: ys =>
      if key y ≤ key x then x :: y :: ys else y :: insertDescBy key x ys

/-- Modelled from the spec: stable descending insertion sort by `key`. -/
def sortDescBy {α : Type} (key : α → ℚ) : List α → List α
  | [] => []
  | x :: xs => insertDescBy key x (sortDescBy key xs)

/-- Modelled from the spec: the greedy candidate score (spec §4.2 step 3):
`available_hours / max(1, total available hours of currently-available
drivers)`, plus a `0.1` bonus when the driver has no route yet today. -/
def greedyScore (total : ℚ) (d : GDriver) : ℚ :=
  d.available_hours / max 1 total + (if ¬ d.assigned then 1/10 else 0)

/-- Modelled from the spec: select the candidate with the strictly
highest score; ties keep the first encountered during the scan
(spec §4.2 step 3). -/
def pickBest (score : GDriver → ℚ) (l : List GDriver) : Option GDriver :=
  l.foldl
    (fun best d =>
      match best with
      | none => some d
      | some b => if score b < score d then some d else some b)
    none

/-- Modelled from the spec: one route of the greedy loop (spec §4.2 steps
3-5): scan the not-yet-assigned drivers with enough hours, assign the
best-scoring one (marking it unavailable and decrementing its working
hours), or push the route to the unassigned list. -/
def greedyStep (state : List GDriver × List Assignment × List String)
    (route : Route) : List GDriver × List Assignment × List String :=
  let pool := state.1
  let avail := pool.filter fun d => ¬ d.assigned
  let total := (avail.map GDriver.available_hours).sum
  let candidates := avail.filter fun d => route.hours ≤ d.available_hours
  match pickBest (greedyScore total) candidates with
  | none => (pool, state.2.1, state.2.2 ++ [route.name])
  | some b =>
      (pool.map fun d =>
        if d.name = b.name then
          { d with assigned := true,
                   available_hours := d.available_hours - route.hours }
        else d,
       state.2.1 ++
         [{ driver_name := b.name, route_name := route.name,
            route_hours := route.hours }],
       state.2.2)

/-- Modelled from the spec: the per-driver status derived from the input
driver and the day's assignments (spec §3 notes `DriverStatus` is
"derived, not authoritative — always recomputable from Driver +
Assignments"). -/
def greedyDriverStatus (assignments : List Assignment) (d : Driver) :
    DriverStatus :=
  match assignments.find? (fun a => a.driver_name = d.name) with
  | some a =>
      { name := d.name, assigned_route := some a.route_name,
        assigned_hours := a.route_hours,
        remaining_hours := d.available_hours - a.route_hours }
  | none =>
      { name := d.name, assigned_route := none, assigned_hours := 0,
        remaining_hours := d.available_hours }

/-- Modelled from the spec: the Greedy Assigner (spec §4.2), absent from
`src/`.  Raises (models as `Except.error`) on empty drivers or routes
(§4.2 "Failure"); filters out zero-hour drivers, sorts drivers and routes
descending, folds `greedyStep` over the routes, and reports an
`optimal`-status result whose `objective_value` is the sum of assigned
route hours (§4.2 step 6), mirroring the Exact Assigner's output shape. -/
def greedy_solve (drivers : List Driver) (routes : List Route) :
    Except String SolveResult :=
  if drivers.isEmpty || routes.isEmpty then
    Except.error "Both drivers and routes must be provided"
  else
    let pool0 :=
      (sortDescBy Driver.available_hours
        (drivers.filter fun d => 0 < d.available_hours)).map
        fun d => GDriver.mk d.name d.available_hours false
    let final :=
      (sortDescBy Route.hours routes).foldl greedyStep (pool0, [], [])
    let assignments := final.2.1
    let unassigned_routes := final.2.2
    Except.ok
      { status := Status.optimal
        assignments := assignments
        driver_status := drivers.map (greedyDriverStatus assignments)
        unassigned_routes := unassigned_routes
        statistics := some
          { total_routes := routes.length
            routes_assigned := assignments.length
            routes_unassigned := unassigned_routes.length
            total_hours_assigned :=
              (assignments.map Assignment.route_hours).sum
            drivers_working := assignments.length
            drivers_available := drivers.length }
        objective_value := some ((assignments.map Assignment.route_hours).sum)
        message := none }

/-- One insertion into the `assignment_map` dict built at lines 243-245
(`assignment_map[assignment['driver_name']] = assignment['route_hours']`):
a later entry for the same `driver_name` overwrites an earlier one.  The
dict is modelled as a total lookup function with the `.get(name, 0)`
default of line 250 built in. -/
def insertAssignment (m : String → ℚ) (a : Assignment) : String → ℚ :=
  fun n => if n = a.driver_name then a.route_hours else m n

/-- The dict as a total lookup function: fold of the insertions over the
assignment list, defaulting to `0`. -/
def assignmentMap (assignments : List Assignment) : String → ℚ :=
  assignments.foldl insertAssignment (fun _ => 0)

/-- Embedding of `update_driver_hours` (lines 227-255). -/
def update_driver_hours (drivers : List Driver)
    (assignments : List Assignment) : List Driver :=
  drivers.map fun driver =>
    { driver with
        available_hours :=
          max 0 (driver.available_hours -
            assignmentMap assignments driver.name) }

/-- Follows the claim's words, for comparison with the source-derived
`assignmentMap`: the `route_hours` of the assignment naming the driver —
the last such assignment when several share the name — and `0` when no
assignment names them. -/
def lastAssignedHours (name : String) (assignments : List Assignment) : ℚ :=
  match assignments.reverse.find? (fun a => a.driver_name = name) with
  | some a => a.route_hours
  | none => 0

theorem foldl_insertAssignment (l : List Assignment) (m : String → ℚ)
    (n : String) :
    List.foldl insertAssignment m l n =
      (((l.reverse.find? fun a => a.driver_name = n).map
        Assignment.route_hours).getD (m n)) := by
  induction l generalizing m with
  | nil => rfl
  | cons a l ih =>
      rw [List.foldl_cons, ih, List.reverse_cons, List.find?_append]
      cases hf : List.find? (fun x => x.driver_name = n) l.reverse with
      | some b => rfl
      | none =>
          by_cases hp : a.driver_name = n
          · subst hp
            simp [insertAssignment]
          · have hp' : ¬ n = a.driver_name := fun he => hp he.symm
            simp [insertAssignment, hp, hp']

theorem assignmentMap_last (assignments : List Assignment) (n : String) :
    assignmentMap assignments n = lastAssignedHours n assignments := by
  rw [assignmentMap, foldl_insertAssignment, lastAssignedHours]
  cases assignments.reverse.find? fun a => a.driver_name = n <;> rfl

theorem update_driver_hours_congr (drivers : List Driver)
    (xs ys : List Assignment)
    (h : ∀ d ∈ drivers, assignmentMap xs d.name = assignmentMap ys d.name) :
    update_driver_hours drivers xs = update_driver_hours drivers ys := by
  unfold update_driver_hours
  exact List.map_congr_left fun d hd => by rw [h d hd]

theorem assignmentMap_shadow (l1 l2 : List Assignment) (a : Assignment)
    (hx : ∃ x ∈ l2, x.driver_name = a.driver_name) (n : String) :
    assignmentMap (l1 ++ a :: l2) n = assignmentMap (l1 ++ l2) n := by
  rw [assignmentMap, assignmentMap, foldl_insertAssignment,
    foldl_insertAssignment, List.reverse_append, List.reverse_append,
    List.reverse_cons, List.find?_append, List.find?_append,
    List.find?_append]
  cases hf : List.find? (fun x => x.driver_name = n) l2.reverse with
  | some b => rfl
  | none =>
      have hpa : ¬ a.driver_name = n := by
        intro he
        obtain ⟨x, hxl, hxn⟩ := hx
        have hnx := List.find?_eq_none.mp hf x (List.mem_reverse.mpr hxl)
        simp only [decide_eq_true_eq] at hnx
        exact hnx (hxn.trans he)
      simp [hpa]

theorem find?_filter_of_imp {α : Type} (l : List α) (p q : α → Bool)
    (h : ∀ x ∈ l, p x = true → q x = true) :
    (l.filter q).find? p = l.find? p := by
  induction l with
  | nil => rfl
  | cons x l ih =>
      have ih' := ih fun y hy hp => h y (List.mem_cons_of_mem x hy) hp
      by_cases hq : q x = true
      · rw [List.filter_cons_of_pos hq]
        by_cases hp : p x = true
        · simp [List.find?_cons, hp]
        · simp only [Bool.not_eq_true] at hp
          simp [List.find?_cons, hp, ih']
      · have hp : ¬ p x = true := fun hp => hq (h x (List.mem_cons_self x l) hp)
        rw [List.filter_cons_of_neg (by simpa using hq)]
        simp only [Bool.not_eq_true] at hp
        simp [List.find?_cons, hp, ih']

/-- Claim C5: `update_driver_hours` is total over arbitrary driver and
assignment lists; it preserves the length and order of the driver list,
sets each driver's `available_hours` to the old value minus the hours of
the assignment naming that driver (`0` if none; the last one when several
share the name), floored at zero, and ignores assignments whose
`driver_name` matches no input driver. -/
theorem claim_C5 (drivers : List Driver) (assignments : List Assignment) :
    (update_driver_hours drivers assignments).length = drivers.length ∧
    (∀ i : Nat, (update_driver_hours drivers assignments)[i]? =
      (drivers[i]?).map fun d =>
        { d with available_hours :=
            (max 0 (d.available_hours - lastAssignedHours d.name assignments)) }) ∧
    update_driver_hours drivers
        (assignments.filter fun a => drivers.any fun d =>
          d.name = a.driver_name) =
      update_driver_hours drivers assignments := by
  refine ⟨List.length_map _ _, ?_, ?_⟩
  · intro i
    unfold update_driver_hours
    rw [List.getElem?_map]
    have hfg : (fun d : Driver =>
        { d with available_hours :=
            (max 0 (d.available_hours - assignmentMap assignments d.name)) }) =
        (fun d : Driver =>
          { d with available_hours :=
              (max 0 (d.available_hours -
                lastAssignedHours d.name assignments)) }) :=
      funext fun d => by rw [assignmentMap_last]
    rw [hfg]
  · apply update_driver_hours_congr
    intro d hd
    rw [assignmentMap_last, assignmentMap_last, lastAssignedHours,
      lastAssignedHours, ← List.filter_reverse,
      find?_filter_of_imp]
    intro x _ hp
    simp only [decide_eq_true_eq] at hp
    simp only [List.any_eq_true, decide_eq_true_eq]
    exact ⟨d, hd, hp.symm⟩

/-- Claim C6 counterexample: on a driver list containing a negative
`available_hours` (which `update_driver_hours` accepts — it performs no
validation), applying the ledger with an empty assignment list does not
return the input unchanged: the `max(0, ·)` floor raises `-1` to `0`. -/
theorem claim_C6_counterexample :
    update_driver_hours [⟨"A", -1⟩] [] ≠ [⟨"A", -1⟩] := by
  intro hcontra
  have h2 : update_driver_hours [⟨"A", -1⟩] [] =
      [⟨"A", max 0 (-1 - 0)⟩] := rfl
  rw [h2] at hcontra
  injection hcontra with h3 _
  have h4 : max (0 : ℚ) (-1 - 0) = -1 := congrArg Driver.available_hours h3
  have h5 : (0 : ℚ) ≤ max 0 (-1 - 0) := le_max_left _ _
  rw [h4] at h5
  norm_num at h5

/-- Claim C6 (amended): for every driver list in which each driver's
`available_hours` is non-negative, `update_driver_hours` applied with an
empty assignment list returns a driver list equal to the input. -/
theorem claim_C6 (drivers : List Driver)
    (h : ∀ d ∈ drivers, 0 ≤ d.available_hours) :
    update_driver_hours drivers [] = drivers := by
  unfold update_driver_hours
  have hid : ∀ d ∈ drivers, ({ d with available_hours :=
      (max 0 (d.available_hours - assignmentMap [] d.name)) } : Driver) = d := by
    intro d hd
    have h0 : assignmentMap [] d.name = 0 := rfl
    rw [h0, sub_zero, max_eq_right (h d hd)]
  rw [List.map_congr_left hid]
  exact drivers.map_id'

theorem claim_C6_witness :
    update_driver_hours [⟨"A", (2 : ℚ)⟩, ⟨"B", 0⟩] [] =
      [⟨"A", (2 : ℚ)⟩, ⟨"B", 0⟩] :=
  claim_C6 [⟨"A", (2 : ℚ)⟩, ⟨"B", 0⟩] (by decide)

/-- Claim C10: when two or more assignments share a `driver_name`, only
the last such assignment in the list determines the hours subtracted for
that driver — dropping an earlier duplicate does not change the result,
and with exactly the two duplicate assignments only the second one's
`route_hours` is subtracted (not the accumulated sum). -/
theorem claim_C10 (drivers : List Driver) (as1 as2 as3 : List Assignment)
    (a b : Assignment) (h : a.driver_name = b.driver_name) :
    update_driver_hours drivers (as1 ++ a :: (as2 ++ b :: as3)) =
      update_driver_hours drivers (as1 ++ (as2 ++ b :: as3)) ∧
    ∀ d : Driver, b.driver_name = d.name →
      update_driver_hours [d] [a, b] =
        [{ d with available_hours :=
            (max 0 (d.available_hours - b.route_hours)) }] := by
  constructor
  · apply update_driver_hours_congr
    intro d _
    exact assignmentMap_shadow as1 (as2 ++ b :: as3) a
      ⟨b, by simp, h.symm⟩ d.name
  · intro d hd
    unfold update_driver_hours
    simp [assignmentMap, insertAssignment, ← hd]

theorem claim_C10_witness :
    update_driver_hours [⟨"A", (10 : ℚ)⟩] ([] ++ ⟨"A", "R1", 4⟩ ::
        ([] ++ ⟨"A", "R2", 3⟩ :: [])) =
      update_driver_hours [⟨"A", (10 : ℚ)⟩]
        ([] ++ ([] ++ ⟨"A", "R2", 3⟩ :: [])) ∧
    update_driver_hours [⟨"A", (10 : ℚ)⟩] [⟨"A", "R1", 4⟩, ⟨"A", "R2", 3⟩] =
      [⟨"A", (7 : ℚ)⟩] := by
  have hmain := claim_C10 [⟨"A", (10 : ℚ)⟩] [] [] []
    ⟨"A", "R1", 4⟩ ⟨"A", "R2", 3⟩ rfl
  refine ⟨hmain.1, ?_⟩
  rw [hmain.2 ⟨"A", (10 : ℚ)⟩ rfl]
  show [(⟨"A", max 0 ((10 : ℚ) - 3)⟩ : Driver)] = [⟨"A", (7 : ℚ)⟩]
  have h7 : max (0 : ℚ) (10 - 3) = 7 := by norm_num
  rw [h7]

/-- Claim C7: when the solver reports infeasibility (and the input lists
are non-empty, so the guard does not fire), `solve_driver_assignment`
returns a result — it does not raise — whose status is `infeasible`,
carrying a non-empty diagnostic message, and that status is distinct from
the `error` status of the solver-failure branch. -/
theorem claim_C7 (drivers : List Driver) (routes : List Route)
    (oracle : SolverOracle) (hd : drivers ≠ []) (hr : routes ≠ [])
    (hs : oracle.status = LpStatus.INFEASIBLE) :
    ∃ res, solve_driver_assignment drivers routes oracle = Except.ok res ∧
      res.status = Status.infeasible ∧
      res.message = some infeasibleMessage ∧
      infeasibleMessage ≠ "" ∧
      res.status ≠ Status.error := by
  have hde : drivers.isEmpty = false := by
    cases drivers
    · exact absurd rfl hd
    · rfl
  have hre : routes.isEmpty = false := by
    cases routes
    · exact absurd rfl hr
    · rfl
  refine ⟨{ status := Status.infeasible, assignments := [], driver_status := [],
            unassigned_routes := [], statistics := none,
            objective_value := none, message := some infeasibleMessage },
    ?_, rfl, rfl, by decide, by decide⟩
  unfold solve_driver_assignment
  rw [hde, hre, hs]
  rfl

/-- Claim C8: on an input whose driver list or route list is empty (an
absent key yields the empty list via `data.get`'s default),
`solve_driver_assignment` raises (`ValueError`, modelled as
`Except.error`) instead of returning a result. -/
theorem claim_C8 (drivers : List Driver) (routes : List Route)
    (oracle : SolverOracle) (h : drivers = [] ∨ routes = []) :
    solve_driver_assignment drivers routes oracle =
      Except.error "Both drivers and routes must be provided" := by
  unfold solve_driver_assignment
  rcases h with h | h <;> subst h <;> simp

theorem claim_C8_witness :
    solve_driver_assignment [] [⟨"R1", (1 : ℚ)⟩]
        ⟨LpStatus.OPTIMAL, fun _ _ => false⟩ =
      Except.error "Both drivers and routes must be provided" :=
  claim_C8 [] [⟨"R1", (1 : ℚ)⟩] ⟨LpStatus.OPTIMAL, fun _ _ => false⟩
    (Or.inl rfl)

/-- Claim C9: the Greedy Assigner (modelled from the spec, §4.2) on
drivers `[{A,8},{B,4}]` and routes `[{R1,5},{R2,4}]` assigns `R1` to `A`
and `R2` to `B`, with `unassigned_routes` empty. -/
theorem claim_C9 :
    ∃ res, greedy_solve [⟨"A", 8⟩, ⟨"B", 4⟩] [⟨"R1", 5⟩, ⟨"R2", 4⟩] =
        Except.ok res ∧
      res.assignments = [⟨"A", "R1", 5⟩, ⟨"B", "R2", 4⟩] ∧
      res.unassigned_routes = [] := by
  refine ⟨_, rfl, ?_, ?_⟩ <;> decide

theorem claim_C7_witness :
    ∃ res, solve_driver_assignment [⟨"A", (1 : ℚ)⟩] [⟨"R1", (2 : ℚ)⟩]
        ⟨LpStatus.INFEASIBLE, fun _ _ => false⟩ = Except.ok res ∧
      res.status = Status.infeasible ∧
      res.message = some infeasibleMessage ∧
      infeasibleMessage ≠ "" ∧
      res.status ≠ Status.error :=
  claim_C7 [⟨"A", (1 : ℚ)⟩] [⟨"R1", (2 : ℚ)⟩]
    ⟨LpStatus.INFEASIBLE, fun _ _ => false⟩ (by decide) (by decide) rfl

theorem solve_optimal_inv (drivers : List Driver) (routes : List Route)
    (oracle : SolverOracle) (res : SolveResult)
    (hres : solve_driver_assignment drivers routes oracle = Except.ok res)
    (hopt : res.status = Status.optimal) :
    res = optimalResult drivers routes oracle.value := by
  unfold solve_driver_assignment at hres
  by_cases he : (drivers.isEmpty || routes.isEmpty) = true
  · rw [if_pos he] at hres
    exact absurd hres (by simp)
  · rw [if_neg he] at hres
    cases hst : oracle.status <;> rw [hst] at hres <;>
      injection hres with h1
    · exact h1.symm
    · rw [← h1] at hopt
      exact absurd hopt (by decide)
    · rw [← h1] at hopt
      exact absurd hopt (by decide)

theorem unassigned_filter_map (routes : List Route) (A : List Assignment) :
    ((routes.filter fun route =>
      ¬ (A.map Assignment.route_name).contains route.name).map Route.name) =
      (routes.map Route.name).filter
        (fun n => !(A.any fun a => a.route_name = n)) := by
  rw [List.filter_map]
  refine congrArg (List.map Route.name) (List.filter_congr ?_).symm
  intro r _
  rw [Bool.eq_iff_iff]
  simp [List.mem_map, List.any_eq_true]

theorem unassigned_disjoint (routes : List Route) (A : List Assignment)
    (n : String)
    (hn : n ∈ (routes.filter fun route =>
      ¬ (A.map Assignment.route_name).contains route.name).map Route.name) :
    n ∉ A.map Assignment.route_name := by
  obtain ⟨r, hr, hrn⟩ := List.mem_map.mp hn
  subst hrn
  have hq := (List.mem_filter.mp hr).2
  simp only [decide_eq_true_eq] at hq
  intro hmem
  apply hq
  simpa using hmem

/-- Claim C3: for every optimal result, `unassigned_routes` is exactly
the list of input route names that occur as `route_name` in no element of
`assignments`, and no route name appears in both lists. -/
theorem claim_C3 (drivers : List Driver) (routes : List Route)
    (oracle : SolverOracle) (res : SolveResult)
    (hres : solve_driver_assignment drivers routes oracle = Except.ok res)
    (hopt : res.status = Status.optimal) :
    res.unassigned_routes =
      (routes.map Route.name).filter
        (fun n => !(res.assignments.any fun a => a.route_name = n)) ∧
    ∀ n ∈ res.unassigned_routes,
      n ∉ res.assignments.map Assignment.route_name := by
  have hinv := solve_optimal_inv drivers routes oracle res hres hopt
  subst hinv
  constructor
  · exact unassigned_filter_map routes _
  · exact fun n hn => unassigned_disjoint routes _ n hn

theorem claim_C3_witness :
    (optimalResult [⟨"A", (8 : ℚ)⟩] [⟨"R1", (5 : ℚ)⟩]
        (fun i j => decide (i = 0 ∧ j = 0))).unassigned_routes =
      (([⟨"R1", (5 : ℚ)⟩] : List Route).map Route.name).filter
        (fun n => !((optimalResult [⟨"A", (8 : ℚ)⟩] [⟨"R1", (5 : ℚ)⟩]
          (fun i j => decide (i = 0 ∧ j = 0))).assignments.any
            fun a => a.route_name = n)) ∧
    ∀ n ∈ (optimalResult [⟨"A", (8 : ℚ)⟩] [⟨"R1", (5 : ℚ)⟩]
        (fun i j => decide (i = 0 ∧ j = 0))).unassigned_routes,
      n ∉ (optimalResult [⟨"A", (8 : ℚ)⟩] [⟨"R1", (5 : ℚ)⟩]
        (fun i j => decide (i = 0 ∧ j = 0))).assignments.map
          Assignment.route_name :=
  claim_C3 [⟨"A", (8 : ℚ)⟩] [⟨"R1", (5 : ℚ)⟩]
    ⟨LpStatus.OPTIMAL, fun i j => decide (i = 0 ∧ j = 0)⟩
    (optimalResult [⟨"A", (8 : ℚ)⟩] [⟨"R1", (5 : ℚ)⟩]
      (fun i j => decide (i = 0 ∧ j = 0))) rfl rfl

/-- Claim C4: on typed input that passes the structural and
non-negativity checks (non-empty lists, all hour values non-negative),
the validator returns `valid = false` exactly when the maximum driver
`available_hours` is strictly below the minimum route `hours`, and
returns `(true, "")` otherwise; in particular drivers `[{A,3}]` with
routes `[{R1,5}]` are rejected. -/
theorem claim_C4 (drivers : List Driver) (routes : List Route)
    (hd : drivers ≠ []) (hr : routes ≠ [])
    (hdn : ∀ d ∈ drivers, 0 ≤ d.available_hours)
    (hrn : ∀ r ∈ routes, 0 ≤ r.hours) :
    ((validate_assignment_input drivers routes).1 = false ↔
      maxDriverHours drivers < minRouteHours routes) ∧
    (¬ maxDriverHours drivers < minRouteHours routes →
      validate_assignment_input drivers routes = (true, "")) ∧
    (validate_assignment_input [⟨"A", 3⟩] [⟨"R1", 5⟩]).1 = false := by
  have hld : ¬ drivers.length = 0 := by
    simpa [List.length_eq_zero] using hd
  have hlr : ¬ routes.length = 0 := by
    simpa [List.length_eq_zero] using hr
  have hf1 : (List.range drivers.length).find? (fun i =>
      (drivers.getD i default).available_hours < 0) = none := by
    rw [List.find?_eq_none]
    intro i hi
    rw [List.mem_range] at hi
    simp only [decide_eq_true_eq, not_lt]
    rw [List.getD_eq_getElem _ _ hi]
    exact hdn _ (List.getElem_mem hi)
  have hf2 : (List.range routes.length).find? (fun i =>
      (routes.getD i default).hours < 0) = none := by
    rw [List.find?_eq_none]
    intro i hi
    rw [List.mem_range] at hi
    simp only [decide_eq_true_eq, not_lt]
    rw [List.getD_eq_getElem _ _ hi]
    exact hrn _ (List.getElem_mem hi)
  have hcase : validate_assignment_input drivers routes =
      (if maxDriverHours drivers < minRouteHours routes then
        (false, "No driver has enough hours (" ++
          toString (maxDriverHours drivers) ++
          ") to handle the shortest route (" ++
          toString (minRouteHours routes) ++ ")")
      else (true, "")) := by
    unfold validate_assignment_input
    rw [if_neg hld, if_neg hlr, hf1, hf2]
  refine ⟨?_, ?_, by decide⟩
  · rw [hcase]
    by_cases hlt : maxDriverHours drivers < minRouteHours routes
    · rw [if_pos hlt]
      exact ⟨fun _ => hlt, fun _ => rfl⟩
    · rw [if_neg hlt]
      exact ⟨fun hfalse => absurd hfalse (by decide),
        fun habs => absurd habs hlt⟩
  · intro hge
    rw [hcase, if_neg hge]

theorem claim_C4_witness :
    ((validate_assignment_input [⟨"A", (3 : ℚ)⟩] [⟨"R1", (5 : ℚ)⟩]).1 =
        false ↔
      maxDriverHours [⟨"A", (3 : ℚ)⟩] < minRouteHours [⟨"R1", (5 : ℚ)⟩]) ∧
    (¬ maxDriverHours [⟨"A", (3 : ℚ)⟩] < minRouteHours [⟨"R1", (5 : ℚ)⟩] →
      validate_assignment_input [⟨"A", (3 : ℚ)⟩] [⟨"R1", (5 : ℚ)⟩] =
        (true, "")) ∧
    (validate_assignment_input [⟨"A", 3⟩] [⟨"R1", 5⟩]).1 = false :=
  claim_C4 [⟨"A", (3 : ℚ)⟩] [⟨"R1", (5 : ℚ)⟩] (by decide) (by decide)
    (by decide) (by decide)

theorem sum_map_ite_eq_countP (p : Nat → Bool) (l : List Nat) :
    (l.map fun i => if p i then 1 else 0).sum = l.countP p := by
  induction l with
  | nil => rfl
  | cons a l ih =>
      rw [List.map_cons, List.sum_cons, List.countP_cons, ih]
      exact Nat.add_comm _ _

theorem sum_le_one_of_unique (l : List Nat) (g : Nat → Nat) (hnd : l.Nodup)
    (h1 : ∀ i ∈ l, g i ≤ 1)
    (h2 : ∀ i ∈ l, ∀ k ∈ l, 0 < g i → 0 < g k → i = k) :
    (l.map g).sum ≤ 1 := by
  induction l with
  | nil => simp
  | cons a l ih =>
      rw [List.map_cons, List.sum_cons]
      rcases Nat.eq_zero_or_pos (g a) with hga | hga
      · rw [hga, Nat.zero_add]
        exact ih (List.Nodup.of_cons hnd)
          (fun i hi => h1 i (List.mem_cons_of_mem _ hi))
          (fun i hi k hk => h2 i (List.mem_cons_of_mem _ hi) k
            (List.mem_cons_of_mem _ hk))
      · have hz : ∀ x ∈ l.map g, x = 0 := by
          intro x hx
          obtain ⟨i, hi, rfl⟩ := List.mem_map.mp hx
          by_contra hxne
          have hpos : 0 < g i := Nat.pos_of_ne_zero hxne
          have hai := h2 a (List.mem_cons_self a l) i
            (List.mem_cons_of_mem a hi) hga hpos
          rw [hai] at hnd
          exact (List.nodup_cons.mp hnd).1 hi
        rw [List.sum_eq_zero hz, Nat.add_zero]
        exact h1 a (List.mem_cons_self a l)

theorem countP_eq_ite_of_unique (l : List Nat) (hl : l.Nodup) (j : Nat)
    (hj : j ∈ l) (p : Nat → Bool)
    (hp : ∀ k ∈ l, p k = true → k = j) :
    l.countP p = if p j then 1 else 0 := by
  induction l with
  | nil => cases hj
  | cons a l ih =>
      rw [List.countP_cons]
      rcases List.mem_cons.mp hj with rfl | hjl
      · have hc0 : l.countP p = 0 := by
          rw [List.countP_eq_length_filter, List.length_eq_zero,
            List.filter_eq_nil_iff]
          intro k hk hpk
          have hkj := hp k (List.mem_cons_of_mem _ hk) hpk
          rw [hkj] at hk
          exact (List.nodup_cons.mp hl).1 hk
        rw [hc0, Nat.zero_add]
      · have ha : ¬ p a = true := by
          intro hpa
          have haj := hp a (List.mem_cons_self a l) hpa
          rw [haj] at hl
          exact (List.nodup_cons.mp hl).1 hjl
        rw [ih (List.Nodup.of_cons hl) hjl
          (fun k hk hpk => hp k (List.mem_cons_of_mem _ hk) hpk)]
        simp [ha]

theorem eq_singleton_of_length_le_one {α : Type} (l : List α) (x : α)
    (h1 : l.length ≤ 1) (hx : x ∈ l) : l = [x] := by
  match l, hx with
  | [y], hx => rw [List.mem_singleton.mp hx]
  | y :: z :: t, _ => simp at h1

theorem map_field_index_inj {α β : Type} [Inhabited α] (l : List α)
    (f : α → β) (hnodup : (l.map f).Nodup) (i k : Nat)
    (hi : i < l.length) (hk : k < l.length)
    (he : f (l.getD i default) = f (l.getD k default)) : i = k := by
  rw [List.getD_eq_getElem _ _ hi, List.getD_eq_getElem _ _ hk] at he
  have hinj := List.nodup_iff_injective_get.mp hnodup
  have hlen : (l.map f).length = l.length := List.length_map _ _
  have h2 : (l.map f).get ⟨i, by rw [hlen]; exact hi⟩ =
      (l.map f).get ⟨k, by rw [hlen]; exact hk⟩ := by
    rw [List.get_eq_getElem, List.get_eq_getElem, List.getElem_map,
      List.getElem_map]
    exact he
  exact congrArg Fin.val (hinj h2)

theorem countP_optimal_assignments (drivers : List Driver)
    (routes : List Route) (v : Nat → Nat → Bool) (p : Assignment → Bool) :
    (((assignedPairs drivers.length routes.length v).map
      (mkAssignment drivers routes)).countP p) =
    ((List.range drivers.length).map fun i =>
      ((List.range routes.length).filter fun j => v i j).countP
        fun j => p (mkAssignment drivers routes (i, j))).sum := by
  rw [List.countP_map, assignedPairs, List.countP_flatMap]
  congr 1
  apply List.map_congr_left
  intro i _
  show List.countP (p ∘ mkAssignment drivers routes)
    ((((List.range routes.length).filter fun j => v i j)).map
      fun j => (i, j)) = _
  rw [List.countP_map]
  rfl

/-- Claim C1: for every optimal result, assuming the solver-reported
solution satisfies the capacity and hour-budget constraints added to the
solver, and driver names are unique (data-model invariant), each driver
name appears in at most one assignment, and every assignment's
`route_hours` is at most that driver's `available_hours` at solve time. -/
theorem claim_C1 (drivers : List Driver) (routes : List Route)
    (oracle : SolverOracle) (res : SolveResult)
    (hres : solve_driver_assignment drivers routes oracle = Except.ok res)
    (hopt : res.status = Status.optimal)
    (hnodup : (drivers.map Driver.name).Nodup)
    (hB : driverCapacity drivers.length routes.length oracle.value)
    (hC : hourBudget drivers routes oracle.value) :
    (∀ name : String,
      (res.assignments.filter fun a => a.driver_name = name).length ≤ 1) ∧
    (∀ a ∈ res.assignments, ∀ d ∈ drivers, d.name = a.driver_name →
      a.route_hours ≤ d.available_hours) := by
  have hinv := solve_optimal_inv drivers routes oracle res hres hopt
  subst hinv
  constructor
  · intro name
    show ((((assignedPairs drivers.length routes.length oracle.value).map
      (mkAssignment drivers routes)).filter
        fun a => a.driver_name = name)).length ≤ 1
    rw [← List.countP_eq_length_filter, countP_optimal_assignments]
    apply sum_le_one_of_unique _ _ (List.nodup_range _)
    · intro i hi
      calc ((List.range routes.length).filter fun j =>
              oracle.value i j).countP (fun j =>
                decide ((mkAssignment drivers routes (i, j)).driver_name =
                  name))
          ≤ ((List.range routes.length).filter fun j =>
              oracle.value i j).length := List.countP_le_length _
        _ ≤ 1 := hB i (List.mem_range.mp hi)
    · intro i hi k hk hgi hgk
      obtain ⟨ji, _, hpi⟩ := List.countP_pos_iff.mp hgi
      obtain ⟨jk, _, hpk⟩ := List.countP_pos_iff.mp hgk
      simp only [mkAssignment, decide_eq_true_eq] at hpi hpk
      exact map_field_index_inj drivers Driver.name hnodup i k
        (List.mem_range.mp hi) (List.mem_range.mp hk)
        (hpi.trans hpk.symm)
  · intro a ha d hd hdn
    obtain ⟨pq, hpq, rfl⟩ := List.mem_map.mp ha
    obtain ⟨i, hi, hpq2⟩ := List.mem_flatMap.mp hpq
    obtain ⟨j, hj, rfl⟩ := List.mem_map.mp hpq2
    have hiL : i < drivers.length := List.mem_range.mp hi
    have hfil := eq_singleton_of_length_le_one _ j (hB i hiL) hj
    have hc := hC i hiL
    rw [hfil] at hc
    simp only [List.map_cons, List.map_nil, List.sum_cons, List.sum_nil,
      add_zero] at hc
    obtain ⟨⟨k, hk⟩, rfl⟩ := List.mem_iff_get.mp hd
    have hdn' : (drivers.get ⟨k, hk⟩).name =
        (drivers.getD i default).name := hdn
    have hkk : k = i := by
      apply map_field_index_inj drivers Driver.name hnodup k i hk hiL
      have h1 : drivers.getD k default = drivers.get ⟨k, hk⟩ := by
        rw [List.getD_eq_getElem _ _ hk, List.get_eq_getElem]
      rw [h1]
      exact hdn'
    subst hkk
    have h2 : drivers.get ⟨k, hk⟩ = drivers.getD k default := by
      rw [List.getD_eq_getElem _ _ hiL, List.get_eq_getElem]
    rw [h2]
    exact hc

/-- Claim C2: for every optimal result, assuming the solver-reported
solution satisfies the route-coverage constraint added to the solver, and
route names are unique, every input route appears in exactly one
assignment and `unassigned_routes` is empty. -/
theorem claim_C2 (drivers : List Driver) (routes : List Route)
    (oracle : SolverOracle) (res : SolveResult)
    (hres : solve_driver_assignment drivers routes oracle = Except.ok res)
    (hopt : res.status = Status.optimal)
    (hnodup : (routes.map Route.name).Nodup)
    (hA : routeCoverage drivers.length routes.length oracle.value) :
    (∀ r ∈ routes,
      (res.assignments.filter fun a => a.route_name = r.name).length = 1) ∧
    res.unassigned_routes = [] := by
  have hinv := solve_optimal_inv drivers routes oracle res hres hopt
  subst hinv
  have hcount : ∀ r ∈ routes,
      (((assignedPairs drivers.length routes.length oracle.value).map
        (mkAssignment drivers routes)).countP
          fun a => a.route_name = r.name) = 1 := by
    intro r hr
    obtain ⟨⟨j0, hj0⟩, rfl⟩ := List.mem_iff_get.mp hr
    rw [countP_optimal_assignments]
    have hterm : ∀ i ∈ List.range drivers.length,
        (((List.range routes.length).filter fun j =>
          oracle.value i j).countP fun j =>
            decide ((mkAssignment drivers routes (i, j)).route_name =
              (routes.get ⟨j0, hj0⟩).name)) =
        if oracle.value i j0 then 1 else 0 := by
      intro i _
      rw [List.countP_filter]
      rw [countP_eq_ite_of_unique (List.range routes.length)
        (List.nodup_range _) j0 (List.mem_range.mpr hj0)]
      · have hrefl : (mkAssignment drivers routes (i, j0)).route_name =
            (routes.get ⟨j0, hj0⟩).name := by
          show (routes.getD j0 default).name = _
          rw [List.getD_eq_getElem _ _ hj0, List.get_eq_getElem]
        simp [hrefl]
      · intro k hk hpk
        rw [Bool.and_eq_true] at hpk
        have hname := of_decide_eq_true hpk.1
        apply map_field_index_inj routes Route.name hnodup k j0
          (List.mem_range.mp hk) hj0
        have h1 : routes.get ⟨j0, hj0⟩ = routes.getD j0 default := by
          rw [List.getD_eq_getElem _ _ hj0, List.get_eq_getElem]
        rw [← h1]
        exact hname
    rw [List.map_congr_left hterm, sum_map_ite_eq_countP,
      List.countP_eq_length_filter]
    exact hA j0 hj0
  constructor
  · intro r hr
    show ((((assignedPairs drivers.length routes.length oracle.value).map
      (mkAssignment drivers routes)).filter
        fun a => a.route_name = r.name)).length = 1
    rw [← List.countP_eq_length_filter]
    exact hcount r hr
  · show (routes.filter _).map Route.name = []
    rw [List.map_eq_nil_iff, List.filter_eq_nil_iff]
    intro r hr
    have h2 : 0 < (((assignedPairs drivers.length routes.length
        oracle.value).map (mkAssignment drivers routes)).countP
          fun a => a.route_name = r.name) := by
      rw [hcount r hr]
      exact Nat.one_pos
    obtain ⟨a, ha, hpa⟩ := List.countP_pos_iff.mp h2
    have hpa' := of_decide_eq_true hpa
    simp only [decide_eq_true_eq, Decidable.not_not]
    simp only [List.contains_eq_any_beq, List.any_eq_true, beq_iff_eq]
    exact ⟨a.route_name, List.mem_map.mpr ⟨a, ha, rfl⟩, hpa'.symm⟩

theorem claim_C1_witness :
    (∀ name : String,
      (((optimalResult [⟨"A", (8 : ℚ)⟩, ⟨"B", (4 : ℚ)⟩] [⟨"R1", (5 : ℚ)⟩]
        (fun i j => decide (i = 0 ∧ j = 0))).assignments.filter
          fun a => a.driver_name = name).length ≤ 1)) ∧
    (∀ a ∈ (optimalResult [⟨"A", (8 : ℚ)⟩, ⟨"B", (4 : ℚ)⟩]
        [⟨"R1", (5 : ℚ)⟩]
        (fun i j => decide (i = 0 ∧ j = 0))).assignments,
      ∀ d ∈ ([⟨"A", (8 : ℚ)⟩, ⟨"B", (4 : ℚ)⟩] : List Driver),
        d.name = a.driver_name → a.route_hours ≤ d.available_hours) :=
  claim_C1 [⟨"A", (8 : ℚ)⟩, ⟨"B", (4 : ℚ)⟩] [⟨"R1", (5 : ℚ)⟩]
    ⟨LpStatus.OPTIMAL, fun i j => decide (i = 0 ∧ j = 0)⟩
    (optimalResult [⟨"A", (8 : ℚ)⟩, ⟨"B", (4 : ℚ)⟩] [⟨"R1", (5 : ℚ)⟩]
      (fun i j => decide (i = 0 ∧ j = 0))) rfl rfl (by decide)
    (by unfold driverCapacity; decide)
    (by
      intro i hi
      match i, hi with
      | 0, _ => show List.sum [(5 : ℚ)] ≤ 8; norm_num
      | 1, _ => show List.sum ([] : List ℚ) ≤ 4; norm_num
      | n + 2, h =>
        simp only [List.length_cons, List.length_nil] at h
        omega)

theorem claim_C2_witness :
    (∀ r ∈ ([⟨"R1", (5 : ℚ)⟩] : List Route),
      (((optimalResult [⟨"A", (8 : ℚ)⟩, ⟨"B", (4 : ℚ)⟩] [⟨"R1", (5 : ℚ)⟩]
        (fun i j => decide (i = 0 ∧ j = 0))).assignments.filter
          fun a => a.route_name = r.name).length = 1)) ∧
    (optimalResult [⟨"A", (8 : ℚ)⟩, ⟨"B", (4 : ℚ)⟩] [⟨"R1", (5 : ℚ)⟩]
      (fun i j => decide (i = 0 ∧ j = 0))).unassigned_routes = [] :=
  claim_C2 [⟨"A", (8 : ℚ)⟩, ⟨"B", (4 : ℚ)⟩] [⟨"R1", (5 : ℚ)⟩]
    ⟨LpStatus.OPTIMAL, fun i j => decide (i = 0 ∧ j = 0)⟩
    (optimalResult [⟨"A", (8 : ℚ)⟩, ⟨"B", (4 : ℚ)⟩] [⟨"R1", (5 : ℚ)⟩]
      (fun i j => decide (i = 0 ∧ j = 0))) rfl rfl (by decide)
    (by unfold routeCoverage; decide)

end OrtoolsService
